import Mathlib

/-!
Verification of the Magic Math Game engine
(src/frontend/src/components/MagicMathGame.vue).

The component is shallowly embedded: JavaScript numbers are modelled as
exact rationals, JavaScript attribute values (number / string / undefined)
as the inductive `JsVal`, the component state fields relevant to the game
logic as the structure `GameState`, and each method as a pure function on
`GameState`.  The external `mathjs` evaluate call is modelled as a
tokenizer plus a left-to-right precedence-aware evaluator; division by
zero is mapped to `none`, mirroring the non-finite results (`Infinity`,
`NaN`) that the component rejects with its `isFinite` check.
-/

/-- A JavaScript value stored in a card attribute: a number, a string, or
absent (`undefined`). -/
inductive JsVal where
  | num (q : ℚ)
  | str (s : String)
  | undef
deriving DecidableEq, Repr

/-- A card: a stable identity, a display name, and a record of named
attributes (the component reads `card[stat]`, modelled by association-list
lookup). -/
structure Card where
  id : ℕ
  name : String
  stats : List (String × JsVal)
deriving DecidableEq, Repr

/-- The four arithmetic operator symbols used by the game. -/
inductive Op where
  | add
  | sub
  | mul
  | div
deriving DecidableEq, Repr

/-- One term of the generated equation structure: a blank requiring a stat,
or an operator (mirrors the `{ type: 'blank', stat }` and
`{ type: 'operator', value }` objects). -/
inductive EqItem where
  | blank (stat : String)
  | oper (value : Op)
deriving DecidableEq, Repr

/-- The constant `VALID_NUMERIC_STATS = ['cmc', 'power', 'toughness']`. -/
def VALID_NUMERIC_STATS : List String := ["cmc", "power", "toughness"]

/-- The constant `OPERATORS = ['+', '-', '*', '/']`. -/
def OPERATORS : List Op := [Op.add, Op.sub, Op.mul, Op.div]

/-- A string consisting of one or more decimal digits: the regex test
`/^\d+$/.test(value)`. -/
def isDigitString (s : String) : Bool :=
  !s.isEmpty && s.data.all Char.isDigit

/-- Decimal value of a digit string: `parseInt(value, 10)` on a string
matching `/^\d+$/`. -/
def parseDigits (s : String) : ℕ :=
  s.data.foldl (fun a c => a * 10 + (c.toNat - 48)) 0

/-- The method `getStatValue(card, stat)`: `null` for a missing card,
the value itself when `typeof value === 'number'`, the parsed integer for
an all-digit string, and `null` for `'*'`, for `'X'`/`'x'` and for every
other string or absent value. -/
def getStatValue (card : Option Card) (stat : String) : Option ℚ :=
  match card with
  | none => none
  | some c =>
    match List.lookup stat c.stats with
    | some (JsVal.num q) => some q
    | some (JsVal.str v) =>
      if isDigitString v then some ((parseDigits v : ℚ))
      else if v = "*" then none
      else if v.toUpper = "X" then none
      else none
    | _ => none

/-- The component state fields that participate in the game logic. -/
structure GameState where
  cardPool : List Card
  targetNumber : ℤ
  equationStructure : List EqItem
  userSelection : List (Option Card)
  calculatedResult : Option ℤ
  calculationError : Option String
  selectionError : Option String
  selectionErrorIndex : Option ℕ
deriving DecidableEq, Repr

/-- Identities of the cards currently occupying slots:
`userSelection.filter(Boolean).map(card => card.id)`. -/
def selectedIds (s : GameState) : List ℕ :=
  (s.userSelection.filterMap (fun o => o)).map Card.id

/-- The computed property `availableCardPool`: pool cards whose identity is
not among the selected identities, in pool order. -/
def availableCardPool (s : GameState) : List Card :=
  s.cardPool.filter (fun c => !(selectedIds s).contains c.id)

/-- The computed property `isSelectionComplete`: every slot holds a card. -/
def isSelectionComplete (s : GameState) : Bool :=
  s.userSelection.all Option.isSome

/-- Index of the first element satisfying `p`, or `none`
(JavaScript `findIndex`, with `-1` modelled as `none`). -/
def findFirstIdx {α : Type} (p : α → Bool) : List α → Option ℕ
  | [] => none
  | a :: as => if p a then some 0 else (findFirstIdx p as).map (· + 1)

/-- Whether an equation item is a blank (`item.type === 'blank'`). -/
def isBlankItem : EqItem → Bool
  | EqItem.blank _ => true
  | EqItem.oper _ => false

/-- The method `getBlankIndex(equationIndex)`: number of blanks among the
structure entries at positions `0..equationIndex`, minus one. -/
def getBlankIndex (es : List EqItem) (idx : ℕ) : ℤ :=
  ((es.take (idx + 1)).countP isBlankItem : ℤ) - 1

/-- The `find` call inside `selectCard`: the first structure entry that is
a blank whose blank index equals `blankIndex`. -/
def findBlankAt (es : List EqItem) (blankIndex : ℕ) : Option EqItem :=
  (es.enum.find? (fun p =>
    isBlankItem p.2 && decide (getBlankIndex es p.1 = (blankIndex : ℤ)))).map Prod.snd

/-- The selection error message built in `selectCard`. -/
def selectionErrMsg (card : Card) (stat : String) : String :=
  "Card " ++ card.name ++ " does not have a valid number for stat " ++ stat ++ "."

/-- The method `selectCard(card)`: clear the transient fields, find the
first empty slot; if none, stop; otherwise validate the required stat and
either record a selection error or place the card in the slot. -/
def selectCard (card : Card) (s : GameState) : GameState :=
  let s1 : GameState :=
    { s with selectionError := none, selectionErrorIndex := none,
             calculatedResult := none, calculationError := none }
  match findFirstIdx Option.isNone s.userSelection with
  | none => s1
  | some blankIndex =>
    match findBlankAt s.equationStructure blankIndex with
    | none => s1
    | some (EqItem.oper _) => s1
    | some (EqItem.blank requiredStat) =>
      match getStatValue (some card) requiredStat with
      | none =>
        { s1 with selectionError := some (selectionErrMsg card requiredStat),
                  selectionErrorIndex := some blankIndex }
      | some _ =>
        { s1 with userSelection := s1.userSelection.set blankIndex (some card) }

/-- The method `clearSelection(blankIndex)`: when the index is within the
selection array, empty that slot and reset result and error fields;
otherwise do nothing. -/
def clearSelection (blankIndex : ℕ) (s : GameState) : GameState :=
  if blankIndex < s.userSelection.length then
    { s with userSelection := s.userSelection.set blankIndex none,
             calculatedResult := none, calculationError := none,
             selectionError := none, selectionErrorIndex := none }
  else s

/-- A token of the expression string handed to `mathjs.evaluate`. -/
inductive Token where
  | num (q : ℚ)
  | op (o : Op)
deriving DecidableEq, Repr

/-- The expression-building loop of `calculateResultHandler`: walk the
structure; each blank contributes its assigned card's stat value (failing,
as the `throw` does, when that value is `null`), each operator contributes
its symbol. -/
def buildToks (sel : List (Option Card)) : List EqItem → ℕ → Option (List Token)
  | [], _ => some []
  | EqItem.blank stat :: rest, k =>
    match getStatValue (sel.getD k none) stat with
    | none => none
    | some v => (buildToks sel rest (k + 1)).map (fun ts => Token.num v :: ts)
  | EqItem.oper o :: rest, k =>
    (buildToks sel rest k).map (fun ts => Token.op o :: ts)

/-- Parse a token list as `value (op value)*`, the only shape `mathjs`
accepts for the strings this component builds. -/
def parsePairs : List Token → Option (List (Op × ℚ))
  | [] => some []
  | Token.op o :: Token.num v :: rest => (parsePairs rest).map (fun l => (o, v) :: l)
  | _ => none

/-- Split a token list into its leading value and the operator/value pairs
after it. -/
def parseToks : List Token → Option (ℚ × List (Op × ℚ))
  | Token.num v :: rest => (parsePairs rest).map (fun l => (v, l))
  | _ => none

/-- Sign application for the additive accumulator. -/
def applySign (sign : Bool) (q : ℚ) : ℚ :=
  if sign then q else -q

/-- Left-to-right evaluation with operator precedence, as `mathjs`
performs it on a flat expression: `acc` is the sum of completed additive
terms, `sign` the pending additive sign, `term` the multiplicative chain
in progress.  Division by zero yields `none` (the non-finite result that
`calculateResultHandler` rejects). -/
def evalAdd (acc : ℚ) (sign : Bool) (term : ℚ) : List (Op × ℚ) → Option ℚ
  | [] => some (acc + applySign sign term)
  | (Op.mul, v) :: rest => evalAdd acc sign (term * v) rest
  | (Op.div, v) :: rest =>
    if v = 0 then none else evalAdd acc sign (term / v) rest
  | (Op.add, v) :: rest => evalAdd (acc + applySign sign term) true v rest
  | (Op.sub, v) :: rest => evalAdd (acc + applySign sign term) false v rest

/-- The `mathjs.evaluate` call on the built expression: parse the token
list and evaluate it with precedence; `none` stands for a parse failure or
a non-finite value. -/
def evalToks (ts : List Token) : Option ℚ :=
  (parseToks ts).bind (fun p => evalAdd 0 true p.1 p.2)

/-- The error message thrown when a blank's stat resolves to `null`
during calculation. -/
def invalidStatMsg : String := "Invalid stat value during calculation."

/-- The error message thrown on a non-finite evaluation result. -/
def nonFiniteMsg : String :=
  "Calculation resulted in a non-finite number. Check for division by zero."

/-- The method `calculateResultHandler`: refuse incomplete selections;
otherwise build the expression and evaluate it, storing the rounded result
(`Math.round`, modelled by Mathlib `round`, which rounds half toward
positive infinity) or an error with a null result. -/
def calculateResultHandler (s : GameState) : GameState :=
  if isSelectionComplete s then
    match buildToks s.userSelection s.equationStructure 0 with
    | none =>
      { s with calculationError := some invalidStatMsg, calculatedResult := none }
    | some ts =>
      match evalToks ts with
      | none =>
        { s with calculationError := some nonFiniteMsg, calculatedResult := none }
      | some q =>
        { s with calculationError := none, calculatedResult := some (round q) }
  else s

/-- The score shown by the template when a result exists:
`Math.abs(targetNumber - calculatedResult)`. -/
def roundScore (s : GameState) : Option ℕ :=
  s.calculatedResult.map (fun r => (s.targetNumber - r).natAbs)

/-- The stat drawn for blank `i` in `setupNewGame`:
`VALID_NUMERIC_STATS[randomIndex]` with the random index modelled as
`sc i % 3`. -/
def statPick (sc : ℕ → ℕ) (i : ℕ) : String :=
  VALID_NUMERIC_STATS.getD (sc i % 3) "cmc"

/-- The operator drawn after blank `i` in `setupNewGame`:
`OPERATORS[randomIndex]` with the random index modelled as `oc i % 4`. -/
def opPick (oc : ℕ → ℕ) (i : ℕ) : Op :=
  OPERATORS.getD (oc i % 4) Op.add

/-- The structure-building loop of `setupNewGame`: for each `i` below the
blank count push a blank, and between consecutive blanks push an
operator. -/
def buildEquation (sc oc : ℕ → ℕ) : ℕ → ℕ → List EqItem
  | _, 0 => []
  | i, 1 => [EqItem.blank (statPick sc i)]
  | i, (m + 2) =>
    EqItem.blank (statPick sc i) :: EqItem.oper (opPick oc i) ::
      buildEquation sc oc (i + 1) (m + 1)

/-- The method `setupNewGame`, with its random draws made explicit:
`samplePool` stands for `getRandomSample(allCards, 10)`, `rTarget % 900`
for `Math.floor(Math.random() * 900)` and `rBlanks % 4` for
`Math.floor(Math.random() * 4)`.  When fewer than ten usable cards are
loaded the method stops after clearing the transient fields. -/
def setupNewGame (allCards samplePool : List Card) (rTarget rBlanks : ℕ)
    (sc oc : ℕ → ℕ) (s : GameState) : GameState :=
  let s1 : GameState :=
    { s with calculatedResult := none, calculationError := none,
             selectionError := none, selectionErrorIndex := none }
  if allCards.length < 10 then s1
  else
    let numBlanks := rBlanks % 4 + 2
    { s1 with cardPool := samplePool,
              targetNumber := ((rTarget % 900 : ℕ) : ℤ) + 101,
              equationStructure := buildEquation sc oc 0 numBlanks,
              userSelection := List.replicate numBlanks none }

/-- A strictly alternating blank/operator list that starts and ends with a
blank. -/
def altChain : List EqItem → Bool
  | [] => false
  | [EqItem.blank _] => true
  | EqItem.blank _ :: EqItem.oper _ :: rest => altChain rest
  | _ => false

/-- Number of blanks in an equation structure. -/
def countBlanks (es : List EqItem) : ℕ :=
  es.countP isBlankItem

/-! ## Helper lemmas -/

theorem findFirstIdx_lt_length {α : Type} {p : α → Bool} :
    ∀ {l : List α} {i : ℕ}, findFirstIdx p l = some i → i < l.length := by
  intro l
  induction l with
  | nil => intro i h; simp [findFirstIdx] at h
  | cons a as ih =>
    intro i h
    simp only [findFirstIdx] at h
    split at h
    · cases h; simp
    · rcases Option.map_eq_some'.mp h with ⟨j, hj, rfl⟩
      simpa using Nat.succ_lt_succ (ih hj)

theorem findFirstIdx_getElem {α : Type} {p : α → Bool} :
    ∀ {l : List α} {i : ℕ}, findFirstIdx p l = some i →
      ∃ a, l[i]? = some a ∧ p a = true := by
  intro l
  induction l with
  | nil => intro i h; simp [findFirstIdx] at h
  | cons a as ih =>
    intro i h
    simp only [findFirstIdx] at h
    split at h
    · cases h; exact ⟨a, by simp, by assumption⟩
    · rcases Option.map_eq_some'.mp h with ⟨j, hj, rfl⟩
      simpa using ih hj

theorem set_of_getElem? {α : Type} :
    ∀ {l : List α} {i : ℕ} {a : α}, l[i]? = some a → l.set i a = l := by
  intro l
  induction l with
  | nil => intro i a h; simp at h
  | cons b bs ih =>
    intro i a h
    cases i with
    | zero => simp at h; simp [h]
    | succ j => simp at h; simp [List.set, ih h]

theorem mem_set_elim {α : Type} :
    ∀ {l : List α} {i : ℕ} {a b : α}, a ∈ l.set i b → a ∈ l ∨ a = b := by
  intro l
  induction l with
  | nil => intro i a b h; simp at h
  | cons c cs ih =>
    intro i a b h
    cases i with
    | zero =>
      simp only [List.set] at h
      rcases List.mem_cons.mp h with h' | h'
      · right; exact h'
      · left; exact List.mem_cons_of_mem _ h'
    | succ j =>
      simp only [List.set] at h
      rcases List.mem_cons.mp h with h' | h'
      · left; simp [h']
      · rcases ih h' with h'' | h''
        · left; exact List.mem_cons_of_mem _ h''
        · right; exact h''

/-- The resulting selection list of `clearSelection`, isolated from the
other fields. -/
theorem clearSelection_userSelection (t : GameState) (i : ℕ) :
    (clearSelection i t).userSelection =
      if i < t.userSelection.length then t.userSelection.set i none
      else t.userSelection := by
  unfold clearSelection
  split <;> rfl

/-! ## Concrete fixtures for witnesses and counterexamples -/

/-- A card whose `cmc` is the number 5 and whose `power` is the digit
string `"2"`. -/
def cardA : Card := ⟨1, "Alpha", [("cmc", JsVal.num 5), ("power", JsVal.str "2")]⟩

/-- A card whose `cmc` is the number 3. -/
def cardB : Card := ⟨2, "Beta", [("cmc", JsVal.num 3)]⟩

/-- A card whose `cmc` is the number 0. -/
def cardZ : Card := ⟨3, "Gamma", [("cmc", JsVal.num 0)]⟩

/-- A card whose `cmc` is the number 2. -/
def cardTwo : Card := ⟨5, "Two", [("cmc", JsVal.num 2)]⟩

/-- A card whose `power` is the placeholder marker string. -/
def cardStar : Card := ⟨4, "Delta", [("power", JsVal.str "*")]⟩

/-- A card whose `cmc` is the number 4. -/
def cardFour : Card := ⟨6, "Four", [("cmc", JsVal.num 4)]⟩

/-- A fresh two-blank state: `power + cmc`, nothing assigned. -/
def w1 : GameState :=
  { cardPool := [cardStar, cardA]
    targetNumber := 10
    equationStructure := [EqItem.blank "power", EqItem.oper Op.add, EqItem.blank "cmc"]
    userSelection := [none, none]
    calculatedResult := none, calculationError := none
    selectionError := none, selectionErrorIndex := none }

/-! ## C1: rejected assignment mutates nothing but the error report -/

/-- C1.  When the first empty slot's required attribute resolves to null
for the candidate card, `selectCard` rejects the assignment: it reports
the offending slot index and reason in the selection-error fields, and
leaves every other state component — in particular the slot assignments,
hence also the available pool — exactly as before the call. -/
theorem selectCard_reject_frame (s : GameState) (card : Card) (i : ℕ) (stat : String)
    (hres : s.calculatedResult = none) (herr : s.calculationError = none)
    (hfind : findFirstIdx Option.isNone s.userSelection = some i)
    (hblank : findBlankAt s.equationStructure i = some (EqItem.blank stat))
    (hnull : getStatValue (some card) stat = none) :
    selectCard card s =
      { s with selectionError := some (selectionErrMsg card stat),
               selectionErrorIndex := some i } ∧
    (selectCard card s).userSelection = s.userSelection ∧
    availableCardPool (selectCard card s) = availableCardPool s := by
  obtain ⟨pool, tgt, es, sel, cr, ce, se, sei⟩ := s
  simp only at hres herr hfind hblank
  subst hres herr
  have hmain :
      selectCard card ⟨pool, tgt, es, sel, none, none, se, sei⟩ =
        ⟨pool, tgt, es, sel, none, none,
          some (selectionErrMsg card stat), some i⟩ := by
    simp only [selectCard, hfind, hblank, hnull]
  refine ⟨hmain, ?_, ?_⟩
  · rw [hmain]
  · rw [hmain]
    rfl

/-- C1 witness.  Selecting the `"*"`-power card for a fresh `power + cmc`
template is rejected at slot 0 with the state otherwise untouched. -/
theorem selectCard_reject_frame_witness :
    selectCard cardStar w1 =
      { w1 with selectionError := some (selectionErrMsg cardStar "power"),
                selectionErrorIndex := some 0 } ∧
    (selectCard cardStar w1).userSelection = w1.userSelection ∧
    availableCardPool (selectCard cardStar w1) = availableCardPool w1 :=
  selectCard_reject_frame w1 cardStar 0 "power" (by rfl) (by rfl)
    (by decide) (by decide) (by decide)

/-! ## C10: selectCard with all slots full -/

/-- A fully assigned one-blank state carrying a computed result. -/
def s10 : GameState :=
  { cardPool := [cardA, cardB]
    targetNumber := 10
    equationStructure := [EqItem.blank "cmc"]
    userSelection := [some cardA]
    calculatedResult := some 7, calculationError := none
    selectionError := none, selectionErrorIndex := none }

/-- C10 counterexample.  With every slot occupied, `selectCard` leaves the
slot assignments alone but does modify the game state: the previously
computed evaluation result is reset to null, so the call is not a no-op as
the claim states. -/
theorem selectCard_full_counterexample :
    (selectCard cardB s10).userSelection = s10.userSelection ∧
    s10.calculatedResult = some 7 ∧
    (selectCard cardB s10).calculatedResult = none ∧
    selectCard cardB s10 ≠ s10 := by decide

/-- C10 amended.  When every slot is already occupied, `selectCard` leaves
the slot assignments, pool, template and target unchanged, but resets the
transient fields — any previously computed evaluation result, calculation
error, and the selection-error report — to null. -/
theorem selectCard_full_resets_transients (s : GameState) (card : Card)
    (h : findFirstIdx Option.isNone s.userSelection = none) :
    selectCard card s =
      { s with selectionError := none, selectionErrorIndex := none,
               calculatedResult := none, calculationError := none } := by
  simp only [selectCard, h]

/-- C10 witness. -/
theorem selectCard_full_resets_transients_witness :
    selectCard cardB s10 =
      { s10 with selectionError := none, selectionErrorIndex := none,
                 calculatedResult := none, calculationError := none } :=
  selectCard_full_resets_transients s10 cardB (by decide)

/-! ## C7: clearSelection behavior -/

/-- A one-slot state with an assignment, used for the out-of-range call. -/
def s7 : GameState :=
  { cardPool := [cardA]
    targetNumber := 10
    equationStructure := [EqItem.blank "cmc"]
    userSelection := [some cardA]
    calculatedResult := none, calculationError := none
    selectionError := none, selectionErrorIndex := none }

/-- A one-slot state whose slot is empty but which carries a pending
selection error. -/
def s7b : GameState :=
  { cardPool := [cardA]
    targetNumber := 10
    equationStructure := [EqItem.blank "cmc"]
    userSelection := [none]
    calculatedResult := none, calculationError := none
    selectionError := some "pending", selectionErrorIndex := some 0 }

/-- C7 counterexample.  An out-of-range `clearSelection` completes
silently — the state is returned unchanged and no failure of any kind is
recorded — rather than failing with `IndexOutOfRange`; and clearing an
already-empty slot is not a no-op, since it erases the pending
selection-error report. -/
theorem clearSelection_counterexample :
    clearSelection 3 s7 = s7 ∧
    s7b.userSelection[0]? = some none ∧
    s7b.selectionError = some "pending" ∧
    (clearSelection 0 s7b).selectionError = none ∧
    clearSelection 0 s7b ≠ s7b := by decide

/-- C7 amended.  `clearSelection(i)`: when `i` is within the selection
bounds the slot is set to empty and the computed result and all error
indicators are reset to null (even when the slot was already empty, so the
call is not a strict no-op); when `i` is out of bounds the call completes
silently, returning the state unchanged with no `IndexOutOfRange`
failure. -/
theorem clearSelection_behavior (s : GameState) (i : ℕ) :
    (i < s.userSelection.length →
      clearSelection i s =
        { s with userSelection := s.userSelection.set i none,
                 calculatedResult := none, calculationError := none,
                 selectionError := none, selectionErrorIndex := none }) ∧
    (s.userSelection.length ≤ i → clearSelection i s = s) := by
  constructor
  · intro h
    simp only [clearSelection, if_pos h]
  · intro h
    simp only [clearSelection, if_neg (not_lt.mpr h)]

/-- C7 witness: both cases at concrete inputs. -/
theorem clearSelection_behavior_witness :
    clearSelection 0 s7 =
      { s7 with userSelection := s7.userSelection.set 0 none,
                calculatedResult := none, calculationError := none,
                selectionError := none, selectionErrorIndex := none } ∧
    clearSelection 3 s7 = s7 :=
  ⟨(clearSelection_behavior s7 0).1 (by decide),
   (clearSelection_behavior s7 3).2 (by decide)⟩

/-! ## C9: assign/clear round trip -/

/-- C9.  When `selectCard` succeeds into blank index `i` (the first empty
slot, whose required attribute resolves to a number for the card),
immediately calling `clearSelection i` restores the slot assignments to
their value before the assignment. -/
theorem assign_clear_roundtrip (s : GameState) (card : Card) (i : ℕ)
    (stat : String) (v : ℚ)
    (hfind : findFirstIdx Option.isNone s.userSelection = some i)
    (hblank : findBlankAt s.equationStructure i = some (EqItem.blank stat))
    (hval : getStatValue (some card) stat = some v) :
    (clearSelection i (selectCard card s)).userSelection = s.userSelection := by
  have hlt : i < s.userSelection.length := findFirstIdx_lt_length hfind
  have hget : s.userSelection[i]? = some none := by
    rcases findFirstIdx_getElem hfind with ⟨a, ha, hp⟩
    cases a with
    | none => exact ha
    | some c => simp [Option.isNone] at hp
  have hsel : (selectCard card s).userSelection = s.userSelection.set i (some card) := by
    simp only [selectCard, hfind, hblank, hval]
  rw [clearSelection_userSelection, hsel]
  rw [if_pos (by simpa using hlt)]
  rw [List.set_set]
  exact set_of_getElem? hget

/-- C9 witness: assigning the 5-cmc card to a fresh template and clearing
slot 0 restores the empty selection. -/
theorem assign_clear_roundtrip_witness :
    (clearSelection 0 (selectCard cardA
      { w1 with equationStructure := [EqItem.blank "cmc"],
                userSelection := [none] })).userSelection =
      ({ w1 with equationStructure := [EqItem.blank "cmc"],
                 userSelection := [none] } : GameState).userSelection :=
  assign_clear_roundtrip _ cardA 0 "cmc" 5 (by decide) (by decide) (by decide)

/-! ## C3: getStatValue contract -/

/-- C3.  `getStatValue` is total (the model is a Lean function, so it
never throws) and returns a number exactly when the attribute is present
as a native number or as an all-digit numeral string; it returns null for
a missing card, a missing attribute, and every other string — in
particular the placeholder markers `"*"` and `"X"` — and never substitutes
a default value: any `some` result is traceable to the stored attribute. -/
theorem getStatValue_contract (c : Card) (stat : String) :
    (getStatValue none stat = none) ∧
    (List.lookup stat c.stats = none → getStatValue (some c) stat = none) ∧
    (List.lookup stat c.stats = some JsVal.undef → getStatValue (some c) stat = none) ∧
    (∀ q, List.lookup stat c.stats = some (JsVal.num q) →
      getStatValue (some c) stat = some q) ∧
    (∀ v, List.lookup stat c.stats = some (JsVal.str v) →
      (isDigitString v = true →
        getStatValue (some c) stat = some ((parseDigits v : ℚ))) ∧
      (isDigitString v = false → getStatValue (some c) stat = none)) ∧
    (∀ q, getStatValue (some c) stat = some q →
      List.lookup stat c.stats = some (JsVal.num q) ∨
      ∃ v, List.lookup stat c.stats = some (JsVal.str v) ∧
        isDigitString v = true ∧ ((parseDigits v : ℚ)) = q) := by
  refine ⟨rfl, ?_, ?_, ?_, ?_, ?_⟩
  · intro h; simp [getStatValue, h]
  · intro h; simp [getStatValue, h]
  · intro q h; simp [getStatValue, h]
  · intro v h
    constructor
    · intro hd; simp [getStatValue, h, hd]
    · intro hd
      simp only [getStatValue, h, hd, Bool.false_eq_true, if_false]
      split
      · rfl
      · split
        · rfl
        · rfl
  · intro q h
    rcases hl : List.lookup stat c.stats with _ | val
    · simp [getStatValue, hl] at h
    · cases val with
      | num q' =>
        simp only [getStatValue, hl, Option.some.injEq] at h
        left; rw [h]
      | str v =>
        rcases hd : isDigitString v with _ | _
        · simp only [getStatValue, hl, hd, Bool.false_eq_true, if_false] at h
          split at h
          · exact absurd h (by simp)
          · split at h
            · exact absurd h (by simp)
            · exact absurd h (by simp)
        · simp only [getStatValue, hl, hd, if_true, Option.some.injEq] at h
          right; exact ⟨v, rfl, hd, h⟩
      | undef => simp [getStatValue, hl] at h

/-- C3 witness: the marker card yields null for `power`, the numeric and
digit-string attributes of `cardA` yield their values, and a missing
attribute yields null. -/
theorem getStatValue_contract_witness :
    getStatValue (some cardStar) "power" = none ∧
    getStatValue (some cardA) "cmc" = some 5 ∧
    getStatValue (some cardA) "power" = some 2 ∧
    getStatValue (some cardA) "toughness" = none := by
  refine ⟨?_, ?_, ?_, ?_⟩
  · exact ((getStatValue_contract cardStar "power").2.2.2.2.1 "*" (by decide)).2 (by decide)
  · exact (getStatValue_contract cardA "cmc").2.2.2.1 5 (by decide)
  · have := ((getStatValue_contract cardA "power").2.2.2.2.1 "2" (by decide)).1 (by decide)
    simpa using this
  · exact (getStatValue_contract cardA "toughness").2.1 (by decide)

/-! ## Spec-side precedence semantics -/

/-- Modelled from the spec: collapse every multiplicative chain
(`*`/`/` binding before `+`/`-`) into a single value, leaving a purely
additive expression; division by zero yields `none`. -/
def collapseMul (f : ℚ) : List (Op × ℚ) → Option (ℚ × List (Op × ℚ))
  | [] => some (f, [])
  | (Op.mul, v) :: rest => collapseMul (f * v) rest
  | (Op.div, v) :: rest =>
    if v = 0 then none else collapseMul (f / v) rest
  | (Op.add, v) :: rest =>
    (collapseMul v rest).map (fun p => (f, (Op.add, p.1) :: p.2))
  | (Op.sub, v) :: rest =>
    (collapseMul v rest).map (fun p => (f, (Op.sub, p.1) :: p.2))

/-- Modelled from the spec: left-associated folding of the remaining
additive operators. -/
def foldAdd (f : ℚ) : List (Op × ℚ) → ℚ
  | [] => f
  | (Op.add, v) :: rest => foldAdd (f + v) rest
  | (Op.sub, v) :: rest => foldAdd (f - v) rest
  | (_, _) :: rest => foldAdd f rest

/-- Modelled from the spec: standard infix arithmetic — evaluate all
multiplicative chains first, then fold the additive operators left to
right. -/
def specEval (f : ℚ) (ps : List (Op × ℚ)) : Option ℚ :=
  (collapseMul f ps).map (fun p => foldAdd p.1 p.2)

theorem evalAdd_eq_collapse :
    ∀ (ps : List (Op × ℚ)) (acc : ℚ) (sign : Bool) (term : ℚ),
      evalAdd acc sign term ps =
        (collapseMul term ps).map
          (fun p => foldAdd (acc + applySign sign p.1) p.2) := by
  intro ps
  induction ps with
  | nil => intro acc sign term; rfl
  | cons hd rest ih =>
    intro acc sign term
    obtain ⟨o, v⟩ := hd
    cases o with
    | mul =>
      simp only [evalAdd, collapseMul]
      exact ih acc sign (term * v)
    | div =>
      simp only [evalAdd, collapseMul]
      split
      · rfl
      · exact ih acc sign (term / v)
    | add =>
      simp only [evalAdd, collapseMul]
      rw [ih (acc + applySign sign term) true v]
      rcases collapseMul v rest with _ | p
      · rfl
      · simp only [Option.map_some', foldAdd, applySign, if_true]
    | sub =>
      simp only [evalAdd, collapseMul]
      rw [ih (acc + applySign sign term) false v]
      rcases collapseMul v rest with _ | p
      · rfl
      · simp [foldAdd, applySign, sub_eq_add_neg]

/-- The code evaluator agrees with the spec's precedence semantics. -/
theorem evalAdd_eq_specEval (f : ℚ) (ps : List (Op × ℚ)) :
    evalAdd 0 true f ps = specEval f ps := by
  rw [evalAdd_eq_collapse, specEval]
  rcases collapseMul f ps with _ | p
  · rfl
  · simp [applySign]

/-! ## C8: evaluation honors operator precedence -/

/-- A complete `2 + 3 * 4` state. -/
def w8 : GameState :=
  { cardPool := [cardTwo, cardB, cardFour]
    targetNumber := 10
    equationStructure :=
      [EqItem.blank "cmc", EqItem.oper Op.add, EqItem.blank "cmc",
       EqItem.oper Op.mul, EqItem.blank "cmc"]
    userSelection := [some cardTwo, some cardB, some cardFour]
    calculatedResult := none, calculationError := none
    selectionError := none, selectionErrorIndex := none }

/-- C8.  On a complete selection the handler evaluates the assembled
expression under standard infix arithmetic with operator precedence
(multiplicative chains collapse before the additive fold), not strictly
left-to-right: its stored result is the precedence-respecting value,
rounded. -/
theorem calculateResult_precedence (s : GameState) (ts : List Token)
    (f : ℚ) (ps : List (Op × ℚ))
    (hc : isSelectionComplete s = true)
    (hb : buildToks s.userSelection s.equationStructure 0 = some ts)
    (hp : parseToks ts = some (f, ps)) :
    evalToks ts = specEval f ps ∧
    (calculateResultHandler s).calculatedResult = (specEval f ps).map round := by
  have he : evalToks ts = specEval f ps := by
    have h1 : evalToks ts = evalAdd 0 true f ps := by
      rw [evalToks, hp]
      rfl
    rw [h1, evalAdd_eq_specEval]
  refine ⟨he, ?_⟩
  rcases hsp : specEval f ps with _ | q
  · rw [hsp] at he
    simp only [calculateResultHandler, hc, if_true, hb, he, Option.map_none']
  · rw [hsp] at he
    simp only [calculateResultHandler, hc, if_true, hb, he, Option.map_some']

/-- C8 witness: `2 + 3 * 4` evaluates to 14 (as `2 + (3 * 4)`), not to the
sequential value 20. -/
theorem calculateResult_precedence_witness :
    (calculateResultHandler w8).calculatedResult = some 14 ∧ (14 : ℤ) ≠ 20 := by
  have h := calculateResult_precedence w8
    [Token.num 2, Token.op Op.add, Token.num 3, Token.op Op.mul, Token.num 4]
    2 [(Op.add, 3), (Op.mul, 4)] (by decide) (by decide) (by decide)
  refine ⟨?_, by decide⟩
  have hv : specEval 2 [(Op.add, 3), (Op.mul, 4)] = some 14 := by
    norm_num [specEval, collapseMul, foldAdd]
  rw [h.2, hv]
  simp

/-! ## C4: non-finite evaluation yields an error and no score -/

/-- A complete `5 / 0` state. -/
def w4 : GameState :=
  { cardPool := [cardA, cardZ]
    targetNumber := 10
    equationStructure := [EqItem.blank "cmc", EqItem.oper Op.div, EqItem.blank "cmc"]
    userSelection := [some cardA, some cardZ]
    calculatedResult := none, calculationError := none
    selectionError := none, selectionErrorIndex := none }

/-- C4.  When a complete selection's expression evaluates to a non-finite
value (division by zero), the handler records the non-finite calculation
error, retains no evaluation result (`calculatedResult` stays null), and
consequently no round score is produced. -/
theorem calculateResult_nonfinite (s : GameState) (ts : List Token)
    (f : ℚ) (ps : List (Op × ℚ))
    (hc : isSelectionComplete s = true)
    (hb : buildToks s.userSelection s.equationStructure 0 = some ts)
    (hp : parseToks ts = some (f, ps))
    (hnf : evalAdd 0 true f ps = none) :
    calculateResultHandler s =
      { s with calculationError := some nonFiniteMsg, calculatedResult := none } ∧
    (calculateResultHandler s).calculatedResult = none ∧
    roundScore (calculateResultHandler s) = none := by
  have he : evalToks ts = none := by
    rw [evalToks, hp]
    exact hnf
  have hmain : calculateResultHandler s =
      { s with calculationError := some nonFiniteMsg, calculatedResult := none } := by
    simp only [calculateResultHandler, hc, if_true, hb, he]
  refine ⟨hmain, ?_, ?_⟩
  · rw [hmain]
  · rw [hmain]
    rfl

/-- C4 witness: `5 / 0` produces the non-finite error, a null result, and
no score. -/
theorem calculateResult_nonfinite_witness :
    calculateResultHandler w4 =
      { w4 with calculationError := some nonFiniteMsg, calculatedResult := none } ∧
    (calculateResultHandler w4).calculatedResult = none ∧
    roundScore (calculateResultHandler w4) = none :=
  calculateResult_nonfinite w4 [Token.num 5, Token.op Op.div, Token.num 0]
    5 [(Op.div, 0)] (by decide) (by decide) (by decide) (by decide)

/-! ## C5: rounding of the evaluated value -/

/-- Modelled from the spec: rounding to the nearest integer with ties
(fractional part exactly one half) rounded half away from zero. -/
def roundHalfAway (q : ℚ) : ℤ :=
  if q < 0 then -(round (-q)) else round q

/-- A complete `0 - 5 / 2` state, whose value is −2.5. -/
def s5c : GameState :=
  { cardPool := [cardZ, cardA, cardTwo]
    targetNumber := 10
    equationStructure :=
      [EqItem.blank "cmc", EqItem.oper Op.sub, EqItem.blank "cmc",
       EqItem.oper Op.div, EqItem.blank "cmc"]
    userSelection := [some cardZ, some cardA, some cardTwo]
    calculatedResult := none, calculationError := none
    selectionError := none, selectionErrorIndex := none }

/-- C5 counterexample.  The `0 - 5 / 2` state evaluates to −2.5;
rounding half away from zero would give −3, but the handler (JavaScript
`Math.round`, which rounds ties toward positive infinity) stores −2, so
the claimed tie-breaking rule is false. -/
theorem calculateResult_round_counterexample :
    evalToks [Token.num 0, Token.op Op.sub, Token.num 5, Token.op Op.div, Token.num 2] =
      some (-5 / 2) ∧
    buildToks s5c.userSelection s5c.equationStructure 0 =
      some [Token.num 0, Token.op Op.sub, Token.num 5, Token.op Op.div, Token.num 2] ∧
    (calculateResultHandler s5c).calculatedResult = some (-2) ∧
    roundHalfAway (-5 / 2) = -3 ∧
    (-2 : ℤ) ≠ -3 := by
  have he : evalToks
      [Token.num 0, Token.op Op.sub, Token.num 5, Token.op Op.div, Token.num 2] =
        some (-5 / 2) := by
    norm_num [evalToks, parseToks, parsePairs, evalAdd, applySign]
  have hc : isSelectionComplete s5c = true := by decide
  have hb : buildToks s5c.userSelection s5c.equationStructure 0 =
      some [Token.num 0, Token.op Op.sub, Token.num 5, Token.op Op.div, Token.num 2] := by
    decide
  refine ⟨he, hb, ?_, ?_, by decide⟩
  · simp only [calculateResultHandler, hc, if_true, hb, he]
    rw [round_eq]
    norm_num
  · have hneg : ((-5 : ℚ) / 2) < 0 := by norm_num
    rw [roundHalfAway, if_pos hneg]
    rw [round_eq]
    norm_num

/-- C5 amended.  When a complete selection's expression evaluates to the
finite value `q`, the stored rounded value is `⌊q + 1/2⌋`: nearest
integer, with ties rounded half toward positive infinity (`Math.round`),
so −2.5 rounds to −2, not −3. -/
theorem calculateResult_round_half_up (s : GameState) (ts : List Token)
    (f : ℚ) (ps : List (Op × ℚ)) (q : ℚ)
    (hc : isSelectionComplete s = true)
    (hb : buildToks s.userSelection s.equationStructure 0 = some ts)
    (hp : parseToks ts = some (f, ps))
    (hq : evalAdd 0 true f ps = some q) :
    (calculateResultHandler s).calculatedResult = some ⌊q + 1 / 2⌋ := by
  have he : evalToks ts = some q := by
    rw [evalToks, hp]
    exact hq
  simp only [calculateResultHandler, hc, if_true, hb, he]
  rw [round_eq]

/-- C5 witness: the −2.5-valued state stores −2. -/
theorem calculateResult_round_half_up_witness :
    (calculateResultHandler s5c).calculatedResult = some (-2) := by
  have h := calculateResult_round_half_up s5c
    [Token.num 0, Token.op Op.sub, Token.num 5, Token.op Op.div, Token.num 2]
    0 [(Op.sub, 5), (Op.div, 2)] (-5 / 2)
    (by decide) (by decide) (by decide)
    (by norm_num [evalAdd, applySign])
  rw [h]
  norm_num

/-! ## C2: shape of generated templates -/

theorem statPick_mem (sc : ℕ → ℕ) (i : ℕ) : statPick sc i ∈ VALID_NUMERIC_STATS := by
  have h : sc i % 3 < 3 := Nat.mod_lt _ (by norm_num)
  unfold statPick
  set m := sc i % 3 with hm
  interval_cases m <;> decide

theorem opPick_mem (oc : ℕ → ℕ) (i : ℕ) : opPick oc i ∈ OPERATORS := by
  have h : oc i % 4 < 4 := Nat.mod_lt _ (by norm_num)
  unfold opPick
  set m := oc i % 4 with hm
  interval_cases m <;> decide

theorem buildEquation_length (sc oc : ℕ → ℕ) :
    ∀ (n i : ℕ), 1 ≤ n → (buildEquation sc oc i n).length = 2 * n - 1
  | 0, _, h => absurd h (by omega)
  | 1, _, _ => by simp [buildEquation]
  | (m + 2), i, _ => by
    simp only [buildEquation, List.length_cons]
    rw [buildEquation_length sc oc (m + 1) (i + 1) (by omega)]
    omega

theorem buildEquation_altChain (sc oc : ℕ → ℕ) :
    ∀ (n i : ℕ), 1 ≤ n → altChain (buildEquation sc oc i n) = true
  | 0, _, h => absurd h (by omega)
  | 1, _, _ => by simp [buildEquation, altChain]
  | (m + 2), i, _ => by
    simp only [buildEquation, altChain]
    exact buildEquation_altChain sc oc (m + 1) (i + 1) (by omega)

theorem buildEquation_countBlanks (sc oc : ℕ → ℕ) :
    ∀ (n i : ℕ), countBlanks (buildEquation sc oc i n) = n
  | 0, _ => by simp [buildEquation, countBlanks]
  | 1, _ => by simp [buildEquation, countBlanks, isBlankItem]
  | (m + 2), i => by
    simp only [buildEquation, countBlanks, List.countP_cons, isBlankItem]
    have := buildEquation_countBlanks sc oc (m + 1) (i + 1)
    simp only [countBlanks] at this
    rw [this]
    simp

theorem buildEquation_mem (sc oc : ℕ → ℕ) :
    ∀ (n i : ℕ) (it : EqItem), it ∈ buildEquation sc oc i n →
      (∃ stat, it = EqItem.blank stat ∧ stat ∈ VALID_NUMERIC_STATS) ∨
      (∃ o, it = EqItem.oper o ∧ o ∈ OPERATORS)
  | 0, _, it, h => by simp [buildEquation] at h
  | 1, i, it, h => by
    simp only [buildEquation, List.mem_singleton] at h
    exact Or.inl ⟨statPick sc i, h, statPick_mem sc i⟩
  | (m + 2), i, it, h => by
    simp only [buildEquation, List.mem_cons] at h
    rcases h with rfl | rfl | h
    · exact Or.inl ⟨statPick sc i, rfl, statPick_mem sc i⟩
    · exact Or.inr ⟨opPick oc i, rfl, opPick_mem oc i⟩
    · exact buildEquation_mem sc oc (m + 1) (i + 1) it h

/-- C2.  When at least ten usable cards are loaded, the template produced
by `setupNewGame` is the alternating blank/operator chain that starts and
ends with a blank, has `2k − 1` terms for blank count `k = rBlanks % 4 + 2`
(so `2 ≤ k ≤ 5`, the configured inclusive range), draws every blank's
required attribute from `VALID_NUMERIC_STATS`, and draws every operator
from `OPERATORS`. -/
theorem setupNewGame_template_wf (allCards samplePool : List Card)
    (rTarget rBlanks : ℕ) (sc oc : ℕ → ℕ) (s : GameState)
    (h10 : 10 ≤ allCards.length) :
    (setupNewGame allCards samplePool rTarget rBlanks sc oc s).equationStructure =
      buildEquation sc oc 0 (rBlanks % 4 + 2) ∧
    altChain
      (setupNewGame allCards samplePool rTarget rBlanks sc oc s).equationStructure = true ∧
    (setupNewGame allCards samplePool rTarget rBlanks sc oc s).equationStructure.length =
      2 * (rBlanks % 4 + 2) - 1 ∧
    countBlanks
      (setupNewGame allCards samplePool rTarget rBlanks sc oc s).equationStructure =
      rBlanks % 4 + 2 ∧
    2 ≤ rBlanks % 4 + 2 ∧ rBlanks % 4 + 2 ≤ 5 ∧
    (∀ stat,
      EqItem.blank stat ∈
        (setupNewGame allCards samplePool rTarget rBlanks sc oc s).equationStructure →
      stat ∈ VALID_NUMERIC_STATS) ∧
    (∀ o,
      EqItem.oper o ∈
        (setupNewGame allCards samplePool rTarget rBlanks sc oc s).equationStructure →
      o ∈ OPERATORS) := by
  have hes : (setupNewGame allCards samplePool rTarget rBlanks sc oc s).equationStructure =
      buildEquation sc oc 0 (rBlanks % 4 + 2) := by
    simp only [setupNewGame, if_neg (not_lt.mpr h10)]
  have hmod : rBlanks % 4 < 4 := Nat.mod_lt _ (by norm_num)
  refine ⟨hes, ?_, ?_, ?_, by omega, by omega, ?_, ?_⟩
  · rw [hes]
    exact buildEquation_altChain sc oc _ 0 (by omega)
  · rw [hes]
    exact buildEquation_length sc oc _ 0 (by omega)
  · rw [hes]
    exact buildEquation_countBlanks sc oc _ 0
  · intro stat hmem
    rw [hes] at hmem
    rcases buildEquation_mem sc oc _ 0 _ hmem with ⟨st, hst, hin⟩ | ⟨o, ho, _⟩
    · cases hst
      exact hin
    · cases ho
  · intro o hmem
    rw [hes] at hmem
    rcases buildEquation_mem sc oc _ 0 _ hmem with ⟨st, hst, _⟩ | ⟨o', ho', hin⟩
    · cases hst
    · cases ho'
      exact hin

/-- C2 witness at a concrete draw (`rBlanks = 1`, so three blanks). -/
theorem setupNewGame_template_wf_witness :
    altChain
      (setupNewGame (List.replicate 10 cardA) [cardA] 0 1
        (fun _ => 0) (fun _ => 0) w1).equationStructure = true ∧
    (setupNewGame (List.replicate 10 cardA) [cardA] 0 1
      (fun _ => 0) (fun _ => 0) w1).equationStructure.length = 2 * (1 % 4 + 2) - 1 ∧
    countBlanks
      (setupNewGame (List.replicate 10 cardA) [cardA] 0 1
        (fun _ => 0) (fun _ => 0) w1).equationStructure = 1 % 4 + 2 := by
  have h := setupNewGame_template_wf (List.replicate 10 cardA) [cardA] 0 1
    (fun _ => 0) (fun _ => 0) w1 (by simp)
  exact ⟨h.2.1, h.2.2.1, h.2.2.2.1⟩

/-! ## C6: occupancy invariant under assign/clear sequences -/

/-- No card identity occupies two distinct slots. -/
def SlotsNodupById (s : GameState) : Prop :=
  ∀ (i j : ℕ) (ci cj : Card), i ≠ j → s.userSelection[i]? = some (some ci) →
    s.userSelection[j]? = some (some cj) → ci.id ≠ cj.id

/-- Every occupied slot holds a card of the pool. -/
def SlotsInPool (s : GameState) : Prop :=
  ∀ c : Card, some c ∈ s.userSelection → c ∈ s.cardPool

/-- Pool identities are pairwise distinct (the data-model invariant:
identity is unique within a pool snapshot). -/
def PoolIdsNodup (s : GameState) : Prop :=
  (s.cardPool.map Card.id).Nodup

/-- The preserved state invariant. -/
def StateInv (s : GameState) : Prop :=
  PoolIdsNodup s ∧ SlotsInPool s ∧ SlotsNodupById s

/-- One user action on the selection state: clicking an available pool
card (`selectCard`) or clicking a blank (`clearSelection`). -/
inductive GameStep : GameState → GameState → Prop
  | select (s : GameState) (card : Card) (hc : card ∈ availableCardPool s) :
      GameStep s (selectCard card s)
  | clear (s : GameState) (i : ℕ) : GameStep s (clearSelection i s)

/-- States reachable from `s₀` by assign/clear actions. -/
def Reachable (s₀ s : GameState) : Prop :=
  Relation.ReflTransGen GameStep s₀ s

theorem id_mem_selectedIds {s : GameState} {j : ℕ} {c : Card}
    (h : s.userSelection[j]? = some (some c)) : c.id ∈ selectedIds s := by
  have hm : some c ∈ s.userSelection := List.getElem?_mem h
  simp only [selectedIds, List.mem_map, List.mem_filterMap]
  exact ⟨c, ⟨some c, hm, rfl⟩, rfl⟩

theorem available_not_selected {s : GameState} {card : Card}
    (hc : card ∈ availableCardPool s) :
    card ∈ s.cardPool ∧ card.id ∉ selectedIds s := by
  have h := List.mem_filter.mp hc
  refine ⟨h.1, ?_⟩
  have h2 := h.2
  simp only [Bool.not_eq_eq_eq_not, Bool.not_true, List.contains, List.elem_eq_mem,
    decide_eq_false_iff_not] at h2
  exact h2

theorem selectCard_cardPool (card : Card) (s : GameState) :
    (selectCard card s).cardPool = s.cardPool := by
  unfold selectCard
  repeat' split
  all_goals rfl

theorem clearSelection_cardPool (i : ℕ) (s : GameState) :
    (clearSelection i s).cardPool = s.cardPool := by
  unfold clearSelection
  split <;> rfl

theorem selectCard_userSelection_cases (card : Card) (s : GameState) :
    (selectCard card s).userSelection = s.userSelection ∨
    ∃ i, findFirstIdx Option.isNone s.userSelection = some i ∧
      (selectCard card s).userSelection = s.userSelection.set i (some card) := by
  rcases h : findFirstIdx Option.isNone s.userSelection with _ | i
  · left
    simp only [selectCard, h]
  · rcases hfb : findBlankAt s.equationStructure i with _ | it
    · left
      simp only [selectCard, h, hfb]
    · cases it with
      | oper o =>
        left
        simp only [selectCard, h, hfb]
      | blank stat =>
        rcases hv : getStatValue (some card) stat with _ | v
        · left
          simp only [selectCard, h, hfb, hv]
        · right
          refine ⟨i, rfl, ?_⟩
          simp only [selectCard, h, hfb, hv]

theorem stateInv_congr {s t : GameState} (hp : t.cardPool = s.cardPool)
    (hu : t.userSelection = s.userSelection) (h : StateInv s) : StateInv t := by
  obtain ⟨h1, h2, h3⟩ := h
  refine ⟨?_, ?_, ?_⟩
  · unfold PoolIdsNodup
    rw [hp]
    exact h1
  · intro c hc
    rw [hp]
    rw [hu] at hc
    exact h2 c hc
  · intro i j ci cj hij hi hj
    rw [hu] at hi hj
    exact h3 i j ci cj hij hi hj

theorem getElem?_set_none_ne {α : Type} (l : List (Option α)) (i : ℕ) (c : α) :
    (l.set i none)[i]? ≠ some (some c) := by
  by_cases hi : i < l.length
  · rw [List.getElem?_set_eq_of_lt _ hi]
    simp
  · rw [List.getElem?_eq_none (by simpa using not_lt.mp hi)]
    simp

theorem stateInv_clear (s : GameState) (i : ℕ) (h : StateInv s) :
    StateInv (clearSelection i s) := by
  obtain ⟨h1, h2, h3⟩ := h
  by_cases hi : i < s.userSelection.length
  · have hu : (clearSelection i s).userSelection = s.userSelection.set i none := by
      rw [clearSelection_userSelection, if_pos hi]
    refine ⟨?_, ?_, ?_⟩
    · unfold PoolIdsNodup
      rw [clearSelection_cardPool]
      exact h1
    · intro c hc
      rw [hu] at hc
      rw [clearSelection_cardPool]
      rcases mem_set_elim hc with h' | h'
      · exact h2 c h'
      · cases h'
    · intro i' j' ci cj hij hi' hj'
      rw [hu] at hi' hj'
      by_cases hii : i' = i
      · subst hii
        exact absurd hi' (getElem?_set_none_ne _ _ _)
      · by_cases hjj : j' = i
        · subst hjj
          exact absurd hj' (getElem?_set_none_ne _ _ _)
        · rw [List.getElem?_set_ne (fun he => hii he.symm)] at hi'
          rw [List.getElem?_set_ne (fun he => hjj he.symm)] at hj'
          exact h3 i' j' ci cj hij hi' hj'
  · have hu : clearSelection i s = s := by
      unfold clearSelection
      rw [if_neg hi]
    rw [hu]
    exact ⟨h1, h2, h3⟩

theorem stateInv_select (s : GameState) (card : Card)
    (hc : card ∈ availableCardPool s) (h : StateInv s) :
    StateInv (selectCard card s) := by
  obtain ⟨h1, h2, h3⟩ := h
  rcases selectCard_userSelection_cases card s with hu | ⟨i, hfind, hu⟩
  · exact stateInv_congr (selectCard_cardPool card s) hu ⟨h1, h2, h3⟩
  · have hlt : i < s.userSelection.length := findFirstIdx_lt_length hfind
    obtain ⟨hpoolmem, hnotsel⟩ := available_not_selected hc
    refine ⟨?_, ?_, ?_⟩
    · unfold PoolIdsNodup
      rw [selectCard_cardPool]
      exact h1
    · intro c hcmem
      rw [hu] at hcmem
      rw [selectCard_cardPool]
      rcases mem_set_elim hcmem with h' | h'
      · exact h2 c h'
      · cases h'
        exact hpoolmem
    · intro i' j' ci cj hij hi' hj'
      rw [hu] at hi' hj'
      by_cases hii : i' = i
      · subst hii
        rw [List.getElem?_set_eq_of_lt _ hlt] at hi'
        have hci : ci = card := by
          injection hi' with h'
          injection h' with h''
          exact h''.symm
        subst hci
        rw [List.getElem?_set_ne hij] at hj'
        intro heq
        exact hnotsel (heq ▸ id_mem_selectedIds hj')
      · by_cases hjj : j' = i
        · subst hjj
          rw [List.getElem?_set_eq_of_lt _ hlt] at hj'
          have hcj : cj = card := by
            injection hj' with h'
            injection h' with h''
            exact h''.symm
          subst hcj
          rw [List.getElem?_set_ne (fun he => hii he.symm)] at hi'
          intro heq
          exact hnotsel (heq ▸ id_mem_selectedIds hi')
        · rw [List.getElem?_set_ne (fun he => hii he.symm)] at hi'
          rw [List.getElem?_set_ne (fun he => hjj he.symm)] at hj'
          exact h3 i' j' ci cj hij hi' hj'

theorem stateInv_reachable {s₀ s : GameState} (h0 : StateInv s₀)
    (hr : Reachable s₀ s) : StateInv s := by
  induction hr with
  | refl => exact h0
  | tail _ hstep ih =>
    cases hstep with
    | select card hc => exact stateInv_select _ card hc ih
    | clear i => exact stateInv_clear _ i ih

theorem available_eq_filter_of_stateInv {s : GameState} (h : StateInv s) :
    availableCardPool s =
      s.cardPool.filter (fun c => !(s.userSelection.contains (some c))) := by
  obtain ⟨h1, h2, _⟩ := h
  unfold availableCardPool
  apply List.filter_congr
  intro c hcmem
  have hiff : c.id ∈ selectedIds s ↔ some c ∈ s.userSelection := by
    constructor
    · intro hid
      simp only [selectedIds, List.mem_map, List.mem_filterMap] at hid
      obtain ⟨d, ⟨o, ho, hod⟩, hdid⟩ := hid
      cases hod
      have hdp : d ∈ s.cardPool := h2 d ho
      have hdc : d = c := List.inj_on_of_nodup_map h1 hdp hcmem hdid
      exact hdc ▸ ho
    · intro hmem
      simp only [selectedIds, List.mem_map, List.mem_filterMap]
      exact ⟨c, ⟨some c, hmem, rfl⟩, rfl⟩
  congr 1
  simp only [List.contains, List.elem_eq_mem]
  rw [decide_eq_decide]
  exact hiff

/-- C6.  From any initial state with an all-empty selection and
duplicate-free pool identities, every state reachable by assign/clear
actions satisfies: no card identity occupies two distinct slots
simultaneously, and the available view is exactly the pool minus the
occupied cards, in pool order. -/
theorem reachable_no_double_occupancy (s₀ s : GameState)
    (hpool : (s₀.cardPool.map Card.id).Nodup)
    (hempty : ∀ o ∈ s₀.userSelection, o = none)
    (hr : Reachable s₀ s) :
    SlotsNodupById s ∧
    availableCardPool s =
      s.cardPool.filter (fun c => !(s.userSelection.contains (some c))) := by
  have h0 : StateInv s₀ := by
    refine ⟨hpool, ?_, ?_⟩
    · intro c hc
      exact absurd (hempty _ hc) (by simp)
    · intro i j ci cj _ hi _
      have h' := hempty _ (List.getElem?_mem hi)
      simp at h'
  have hinv := stateInv_reachable h0 hr
  exact ⟨hinv.2.2, available_eq_filter_of_stateInv hinv⟩

/-- C6 witness: the fresh state `w1` (no assignments) under the empty
action sequence. -/
theorem reachable_no_double_occupancy_witness :
    availableCardPool w1 =
      w1.cardPool.filter (fun c => !(w1.userSelection.contains (some c))) :=
  (reachable_no_double_occupancy w1 w1 (by decide) (by decide)
    Relation.ReflTransGen.refl).2
